import Mathlib

/-!
# Verification of tev's transform-and-statistics pipeline

Shallow embedding of the core of `src/ImageCanvas.cpp` (and the boundary
objects it uses) in Lean 4, together with theorems settling the frozen
claims about the natural-language specification.

Modelling conventions:

* IEEE-754 `float` values are modelled by the type `F`: a rational number,
  positive/negative infinity, or NaN.  Rational arithmetic is exact where
  the C code rounds; none of the claims below depends on rounding.
* The transcendental C library functions (`log`, `exp`, `pow`, `sqrt`,
  `log2`) have no exact rational counterpart.  They are supplied as an
  explicit parameter bundle `MathOps`; every theorem that does not depend
  on their values is proved for an arbitrary bundle, and concrete
  witnesses instantiate the bundle with simple computable functions.
* The `float → int` cast of a NaN, infinite, or out-of-range value is
  undefined behaviour in C++; on the x86 targets tev runs on it produces
  `INT_MIN` (`cvttss2si` "integer indefinite").  `F.toInt` models this.
* Loops that write disjoint array cells (the `ThreadPool::parallelFor`
  dispatches) are embedded as sequential folds; the source guarantees the
  written cells are disjoint, so the sequentialization is faithful.
-/

namespace Tev

/-- Model of an IEEE-754 single-precision value: NaN, ±∞, or a finite value
(represented exactly as a rational). -/
inductive F where
  | nan : F
  | pinf : F
  | ninf : F
  | fin : ℚ → F
deriving DecidableEq, Repr

instance : Inhabited F := ⟨F.fin 0⟩

namespace F

/-- Float `<` comparison: false whenever an operand is NaN. -/
def flt : F → F → Bool
  | nan, _ => false
  | _, nan => false
  | ninf, ninf => false
  | ninf, _ => true
  | pinf, _ => false
  | fin _, pinf => true
  | fin _, ninf => false
  | fin a, fin b => decide (a < b)

/-- Float addition. -/
def fadd : F → F → F
  | nan, _ => nan
  | _, nan => nan
  | pinf, ninf => nan
  | ninf, pinf => nan
  | pinf, _ => pinf
  | _, pinf => pinf
  | ninf, _ => ninf
  | _, ninf => ninf
  | fin a, fin b => fin (a + b)

/-- Float negation. -/
def fneg : F → F
  | nan => nan
  | pinf => ninf
  | ninf => pinf
  | fin a => fin (-a)

/-- Float subtraction. -/
def fsub (a b : F) : F := fadd a (fneg b)

/-- Float multiplication. -/
def fmul : F → F → F
  | nan, _ => nan
  | _, nan => nan
  | pinf, pinf => pinf
  | pinf, ninf => ninf
  | ninf, pinf => ninf
  | ninf, ninf => pinf
  | pinf, fin b => if b > 0 then pinf else if b < 0 then ninf else nan
  | ninf, fin b => if b > 0 then ninf else if b < 0 then pinf else nan
  | fin a, pinf => if a > 0 then pinf else if a < 0 then ninf else nan
  | fin a, ninf => if a > 0 then ninf else if a < 0 then pinf else nan
  | fin a, fin b => fin (a * b)

/-- Float division (ignoring the sign of zero: `x / ±0` uses the sign of
`x`, which is what happens for the positive zeros occurring here). -/
def fdiv : F → F → F
  | nan, _ => nan
  | _, nan => nan
  | pinf, pinf => nan
  | pinf, ninf => nan
  | ninf, pinf => nan
  | ninf, ninf => nan
  | pinf, fin b => if b < 0 then ninf else pinf
  | ninf, fin b => if b < 0 then pinf else ninf
  | fin _, pinf => fin 0
  | fin _, ninf => fin 0
  | fin a, fin b =>
    if b = 0 then (if a > 0 then pinf else if a < 0 then ninf else nan)
    else fin (a / b)

/-- Float absolute value. -/
def fabs : F → F
  | nan => nan
  | pinf => pinf
  | ninf => pinf
  | fin a => fin |a|

/-- `std::isnan`. -/
def fisnan : F → Bool
  | nan => true
  | _ => false

/-- `std::max(a, b)`, i.e. `(a < b) ? b : a`. -/
def fmaxStd (a b : F) : F := if flt a b then b else a

/-- `std::min(a, b)`, i.e. `(b < a) ? b : a`. -/
def fminStd (a b : F) : F := if flt b a then b else a

/-- The C++ `(int)` cast of a float.  Truncates toward zero for in-range
finite values; NaN, infinities and out-of-range values are undefined
behaviour in C++ and produce `INT_MIN` on the x86 targets tev runs on
(`cvttss2si` returns the "integer indefinite" value). -/
def toInt : F → ℤ
  | fin q =>
    if q ≤ -(2 ^ 31) ∨ (2 ^ 31 : ℚ) ≤ q then -(2 ^ 31)
    else if 0 ≤ q then ⌊q⌋ else ⌈q⌉
  | _ => -(2 ^ 31)

end F

open F

/-- tev's `clamp(v, lo, hi)` on integers: `max(lo, min(v, hi))`. -/
def clampInt (v lo hi : ℤ) : ℤ := max lo (min v hi)

/-- The metric enumeration (`EMetric`).  Modelled from the spec: the header
declaring the enumeration is not under `src/`; the variants and their order
are those of the spec's metric table (only injectivity of the numbering
matters below). -/
inductive EMetric where
  | Error | AbsoluteError | SquaredError
  | RelativeAbsoluteError | RelativeSquaredError | Division
deriving DecidableEq, Repr

/-- The post-processing enumeration (`EPostProcessing`).  Modelled from the
spec: header not under `src/`; variants and order from the spec's table. -/
inductive EPostProcessing where
  | Identity | Square | Clip10 | Clip100
deriving DecidableEq, Repr

/-- The tonemap enumeration (`ETonemap`), variants in the order of the
`switch` in `ImageCanvas::applyTonemap`. -/
inductive ETonemap where
  | SRGB | Gamma | FalseColor | PositiveNegative | Complex | Vector | FalseColorPPG
deriving DecidableEq, Repr

/-- Integer value of an `EMetric` as printed by `tfm::format("%d", ...)`.
Modelled from the spec (enumerator order); only injectivity matters. -/
def metricNum : EMetric → ℕ
  | .Error => 0
  | .AbsoluteError => 1
  | .SquaredError => 2
  | .RelativeAbsoluteError => 3
  | .RelativeSquaredError => 4
  | .Division => 5

/-- Integer value of an `EPostProcessing` as printed by `tfm::format`. -/
def ppNum : EPostProcessing → ℕ
  | .Identity => 0
  | .Square => 1
  | .Clip10 => 2
  | .Clip100 => 3

/-- `ImageCanvas::applyMetric` (ImageCanvas.cpp:360-371). -/
def applyMetric (image reference : F) (metric : EMetric) : F :=
  let diff := fsub image reference
  match metric with
  | .Error => diff
  | .AbsoluteError => fabs diff
  | .SquaredError => fmul diff diff
  | .RelativeAbsoluteError => fdiv (fabs diff) (fadd reference (F.fin (1 / 1000)))
  | .RelativeSquaredError =>
    fdiv (fmul diff diff) (fadd (fmul reference reference) (F.fin (1 / 1000)))
  | .Division => fdiv (fadd image (F.fin (1 / 1000))) (fadd reference (F.fin (1 / 1000)))

/-- `ImageCanvas::applyPostProcessing` (ImageCanvas.cpp:373-381). -/
def applyPostProcessing (image : F) (postProcessing : EPostProcessing) : F :=
  match postProcessing with
  | .Identity => image
  | .Square => fmul image image
  | .Clip10 => fminStd image (F.fin 10)
  | .Clip100 => fminStd image (F.fin 100)

/-- The transcendental C library functions used by the pipeline, supplied
as parameters (their values have no exact rational counterpart), together
with the `colormap::turbo()` data table, which lives outside `src/`.
Theorems are proved for an arbitrary bundle wherever possible. -/
structure MathOps where
  qlog : ℚ → ℚ
  qexp : ℚ → ℚ
  qpow : ℚ → ℚ → ℚ
  qsqrt : ℚ → ℚ
  qlog2 : ℚ → ℚ
  turbo : List ℚ

/-- A concrete, computable instantiation of `MathOps`, used by witnesses
and counterexamples (the statements instantiated with it do not depend on
the genuine values of the transcendental functions). -/
def concreteOps : MathOps where
  qlog := fun _ => 0
  qexp := fun _ => 0
  qpow := fun x _ => x
  qsqrt := fun x => x
  qlog2 := fun _ => 0
  turbo := []

/-- The C `log` on an `F` value: `log(+∞) = +∞`, `log(NaN) = NaN`,
`log(0) = -∞`, `log(x) = NaN` for `x < 0`, and the supplied rational
model on positive finite inputs. -/
def flog (ops : MathOps) : F → F
  | F.nan => F.nan
  | F.pinf => F.pinf
  | F.ninf => F.nan
  | F.fin q => if 0 < q then F.fin (ops.qlog q) else if q = 0 then F.ninf else F.nan

/-- The C `exp` on an `F` value (finite results stay finite;
overflow-to-infinity is irrelevant to the claims below). -/
def fexp (ops : MathOps) : F → F
  | F.nan => F.nan
  | F.pinf => F.pinf
  | F.ninf => F.fin 0
  | F.fin q => F.fin (ops.qexp q)

/-- Modelled from the spec: tev's `Channel` class (not under `src/`) — a
named 2-D grid of floating-point samples over an image's pixel dimensions,
addressable by flat index or `(x, y)`. -/
structure Channel where
  name : String
  width : ℤ
  height : ℤ
  data : ℤ → F

instance : Inhabited Channel := ⟨⟨"", 0, 0, fun _ => F.fin 0⟩⟩

/-- Flat-index sample access (`Channel::eval(DenseIndex)`, no bounds
check in the source). -/
def Channel.eval (c : Channel) (j : ℤ) : F := c.data j

/-- Coordinate sample access (`Channel::eval(Vector2i)`).  Modelled from
the spec: out-of-bounds coordinates yield 0 ("missing reference data …
treated as a zero reference value"). -/
def Channel.eval2 (c : Channel) (x y : ℤ) : F :=
  if 0 ≤ x ∧ x < c.width ∧ 0 ≤ y ∧ y < c.height then c.data (x + y * c.width) else F.fin 0

/-- `Channel::count()`: number of pixels. -/
def Channel.count (c : Channel) : ℤ := c.width * c.height

/-- The characters after the last '.' of a character list. -/
def tailAux : List Char → List Char → List Char
  | [], acc => acc
  | c :: rest, acc => if c = '.' then tailAux rest [] else tailAux rest (acc ++ [c])

/-- Modelled from the spec: `Channel::tail` (not under `src/`) — the
suffix of a channel name after the optional group-prefix separator
(the part after the last '.', or the whole name when there is none). -/
def channelTail (name : String) : String :=
  String.mk (tailAux name.data [])

/-- Character-list based upper-casing (`toUpper`). -/
def toUpperStr (s : String) : String :=
  String.mk (s.data.map Char.toUpper)

/-- Modelled from the spec: tev's `Image` class (not under `src/`) — an
immutable, uniquely identified collection of channels plus a fixed pixel
dimension, with a channel-group listing. -/
structure Image where
  id : ℕ
  width : ℤ
  height : ℤ
  channelsInGroup : String → List String
  channel : String → Channel

/-- `Image::size()` as a pair. -/
def Image.size (img : Image) : ℤ × ℤ := (img.width, img.height)

/-- `Image::count()`: number of pixels. -/
def Image.count (img : Image) : ℤ := img.width * img.height

/-- `Image::count()` as a natural number, for iteration. -/
def Image.countN (img : Image) : ℕ := (img.width * img.height).toNat

/-- `ImageCanvas::channelsFromImages` (ImageCanvas.cpp:565-653).  The
per-channel `parallelFor` tasks write disjoint output channels, so each
output channel is embedded directly as its value function; a channel
built by the `(x, y)` loops stores pixel `(x, y)` at flat index
`x + y * width`, which the function below inverts. -/
def channelsFromImages (image : Option Image) (reference : Option Image)
    (requestedChannelGroup : String) (metric : EMetric)
    (postProcessing : EPostProcessing) : List Channel :=
  match image with
  | none => []
  | some img =>
    let channelNames := img.channelsInGroup requestedChannelGroup
    let names := channelNames.map (fun n => toUpperStr (channelTail n))
    let onlyAlpha := names.all (fun n => n = "A")
    match reference with
    | none =>
      (List.range channelNames.length).map (fun i =>
        { name := names.getD i ""
          width := img.width
          height := img.height
          data := fun j =>
            applyPostProcessing ((img.channel (channelNames.getD i "")).eval j)
              postProcessing })
    | some ref =>
      -- `Vector2i offset = (reference->size() - size) / 2;` — C++ integer
      -- division truncates toward zero, hence `Int.div`.
      let offset : ℤ × ℤ :=
        ((ref.width - img.width).tdiv 2, (ref.height - img.height).tdiv 2)
      let referenceChannels := ref.channelsInGroup requestedChannelGroup
      (List.range channelNames.length).map (fun i =>
        { name := names.getD i ""
          width := img.width
          height := img.height
          data := fun j =>
            let chan := img.channel (channelNames.getD i "")
            let isAlpha := ¬onlyAlpha ∧ names.getD i "" = "A"
            let x := j % img.width
            let y := j / img.width
            if i < referenceChannels.length then
              let referenceChan := ref.channel (referenceChannels.getD i "")
              if isAlpha then
                fmul (F.fin (1 / 2))
                  (fadd (chan.eval2 x y)
                    (referenceChan.eval2 (x + offset.1) (y + offset.2)))
              else
                applyPostProcessing
                  (applyMetric (chan.eval2 x y)
                    (referenceChan.eval2 (x + offset.1) (y + offset.2)) metric)
                  postProcessing
            else
              if isAlpha then chan.eval2 x y
              else
                applyPostProcessing (applyMetric (chan.eval2 x y) (F.fin 0) metric)
                  postProcessing })

/-- The argument list of `ImageCanvas::computeCanvasStatistics`
(ImageCanvas.cpp:655-663), bundled. -/
structure StatsArgs where
  image : Image
  reference : Option Image
  requestedChannelGroup : String
  metric : EMetric
  postProcessing : EPostProcessing
  isCropped : Bool
  cropMin : ℤ × ℤ
  cropMax : ℤ × ℤ

/-- The `CanvasStatistics` result record (its fields are read off the
source: mean, maximum, minimum, 400 × nChannels histogram matrix — kept
as a function together with its column count — and `histogramZero`). -/
structure CanvasStatistics where
  mean : F
  maximum : F
  minimum : F
  histogram : ℤ → ℕ → F
  nHistogramCols : ℕ
  histogramZero : ℤ

/-- The alpha-channel relocation of `computeCanvasStatistics`
(ImageCanvas.cpp:671-684).  `alphaChannel` is a pointer to the vector slot
in which a channel named "A" was found; when that slot is not the last
one, the code swaps the slot's contents with the last slot, so that the
pointer afterwards refers to the channel that was last before the swap,
not to the alpha channel.  The second component below is the pointee
after the swap, faithfully reproducing this aliasing. -/
def moveAlphaToBack (flattened : List Channel) : List Channel × Option Channel :=
  if flattened.all (fun c => c.name = "A") then (flattened, none)
  else
    match flattened.findIdx? (fun c => c.name = "A") with
    | none => (flattened, none)
    | some k =>
      if k = flattened.length - 1 then (flattened, some (flattened.getD k default))
      else
        let swapped := (flattened.set k (flattened.getLastD default)).set
          (flattened.length - 1) (flattened.getD k default)
        (swapped, some (swapped.getD k default))

/-- Crop-rectangle resolution (ImageCanvas.cpp:688-702): full extent when
cropping is disabled, then a per-axis swap when min exceeds max, then a
componentwise clamp into `[0, image size]`. -/
def resolveCrop (image : Image) (isCropped : Bool) (cropMin cropMax : ℤ × ℤ) :
    (ℤ × ℤ) × (ℤ × ℤ) :=
  let c0 := if isCropped then (cropMin, cropMax) else ((0, 0), (image.width, image.height))
  let c1 := if c0.1.1 > c0.2.1 then ((c0.2.1, c0.1.2), (c0.1.1, c0.2.2)) else c0
  let c2 := if c1.1.2 > c1.2.2 then ((c1.1.1, c1.2.2), (c1.2.1, c1.1.2)) else c1
  ((max 0 (min c2.1.1 image.width), max 0 (min c2.1.2 image.height)),
   (max 0 (min c2.2.1 image.width), max 0 (min c2.2.2 image.height)))

/-- The integer range `[a, b)` as a list. -/
def intRange (a b : ℤ) : List ℤ :=
  (List.range (b - a).toNat).map (fun t => a + t)

/-- Accumulator of the single mean/min/max pass (ImageCanvas.cpp:667-669,
705). -/
structure StatsAcc where
  mean : F
  maximum : F
  minimum : F
  pixelCount : ℕ

/-- The mean/min/max accumulation pass over the crop rectangle
(ImageCanvas.cpp:704-721): NaN samples are skipped entirely. -/
def statsLoop (flattened : List Channel) (nChannels : ℕ) (cropMin cropMax : ℤ × ℤ)
    (stride : ℤ) : StatsAcc :=
  (List.range nChannels).foldl (fun acc i =>
    let channel := flattened.getD i default
    (intRange cropMin.2 cropMax.2).foldl (fun acc y =>
      (intRange cropMin.1 cropMax.1).foldl (fun acc x =>
        let j := x + y * stride
        let v := channel.eval j
        if fisnan v then acc
        else
          { mean := fadd acc.mean v
            maximum := fmaxStd acc.maximum v
            minimum := fminStd acc.minimum v
            pixelCount := acc.pixelCount + 1 }) acc) acc)
    { mean := F.fin 0, maximum := F.ninf, minimum := F.pinf, pixelCount := 0 }

/-- `static const float smallest = log(addition);` with `addition` =
0.001 (ImageCanvas.cpp:734-735). -/
def smallestLog (ops : MathOps) : F := flog ops (F.fin (1 / 1000))

/-- The symmetric-log domain transform (ImageCanvas.cpp:736-738). -/
def symmetricLog (ops : MathOps) (val : F) : F :=
  if flt (F.fin 0) val then
    fsub (flog ops (fadd val (F.fin (1 / 1000)))) (smallestLog ops)
  else fneg (fsub (flog ops (fadd (fneg val) (F.fin (1 / 1000)))) (smallestLog ops))

/-- The inverse symmetric-log transform (ImageCanvas.cpp:739-741). -/
def symmetricLogInverse (ops : MathOps) (val : F) : F :=
  if flt (F.fin 0) val then
    fsub (fexp ops (fadd val (smallestLog ops))) (F.fin (1 / 1000))
  else fneg (fsub (fexp ops (fadd (fneg val) (smallestLog ops))) (F.fin (1 / 1000)))

/-- `valToBin` (ImageCanvas.cpp:746-748): the clamp guarantees a bin index
in `[0, 399]` whatever the log-domain arithmetic produced. -/
def valToBin (ops : MathOps) (minLog diffLog : F) (val : F) : ℤ :=
  clampInt (F.toInt (fdiv (fmul (F.fin 400) (fsub (symmetricLog ops val) minLog)) diffLog))
    0 399

/-- `binToVal` (ImageCanvas.cpp:752-754). -/
def binToVal (ops : MathOps) (minLog diffLog : F) (z : ℤ) : F :=
  symmetricLogInverse ops (fadd (fdiv (fmul diffLog (F.fin (z : ℚ))) (F.fin 400)) minLog)

/-- One column of the histogram accumulation phase
(ImageCanvas.cpp:773-777).  The per-channel `parallelFor` tasks write
disjoint columns, so each column is embedded as its own sequential fold
over all `numElements` flat pixel indices of the image. -/
def histColumn (idx : ℤ → ℤ) (weight : ℤ → F) (numElements : ℕ) : ℤ → F :=
  (List.range numElements).foldl
    (fun (h : ℤ → F) (j : ℕ) =>
      Function.update h (idx (j : ℤ)) (fadd (h (idx (j : ℤ))) (weight (j : ℤ))))
    (fun _ => F.fin 0)

/-- The histogram matrix flattened in Eigen's column-major order, as fed
to `std::nth_element` (ImageCanvas.cpp:785-787). -/
def histEntries (hist : ℤ → ℕ → F) (nChannels : ℕ) : List F :=
  (List.range nChannels).flatMap (fun c => (List.range 400).map (fun b => hist (b : ℤ) c))

/-- Insertion into a list sorted by `flt`. -/
def insertSorted (a : F) : List F → List F
  | [] => [a]
  | b :: t => if flt a b then a :: b :: t else b :: insertSorted a t

/-- Deterministic model of the ordering underlying `std::nth_element`
with `operator<` on floats.  (When NaNs are present the C++ comparator
violates the strict-weak-ordering requirement and the selection is
unspecified; no claim below depends on the selected value.) -/
def sortF : List F → List F
  | [] => []
  | a :: t => insertSorted a (sortF t)

/-- The composite channel list of a statistics request, after the alpha
relocation. -/
def statsFlattened (a : StatsArgs) : List Channel :=
  (moveAlphaToBack (channelsFromImages (some a.image) a.reference a.requestedChannelGroup
    a.metric a.postProcessing)).1

/-- The (possibly mis-aimed, see `moveAlphaToBack`) alpha weight channel
of a statistics request. -/
def statsAlpha (a : StatsArgs) : Option Channel :=
  (moveAlphaToBack (channelsFromImages (some a.image) a.reference a.requestedChannelGroup
    a.metric a.postProcessing)).2

/-- `int nChannels = alphaChannel ? flattened.size() - 1 : flattened.size();`
(ImageCanvas.cpp:686). -/
def statsNChannels (a : StatsArgs) : ℕ :=
  if (statsAlpha a).isSome then (statsFlattened a).length - 1 else (statsFlattened a).length

/-- The resolved crop rectangle of a statistics request. -/
def statsCrop (a : StatsArgs) : (ℤ × ℤ) × (ℤ × ℤ) :=
  resolveCrop a.image a.isCropped a.cropMin a.cropMax

/-- The mean/min/max accumulator of a statistics request. -/
def statsAccOf (a : StatsArgs) : StatsAcc :=
  statsLoop (statsFlattened a) (statsNChannels a) (statsCrop a).1 (statsCrop a).2 a.image.width

/-- `minLog` of a statistics request. -/
def statsMinLog (ops : MathOps) (a : StatsArgs) : F :=
  symmetricLog ops (statsAccOf a).minimum

/-- `diffLog` of a statistics request. -/
def statsDiffLog (ops : MathOps) (a : StatsArgs) : F :=
  fsub (symmetricLog ops (statsAccOf a).maximum) (statsMinLog ops a)

/-- The bin-index matrix (ImageCanvas.cpp:761-771): one bin index per
(flat pixel, data channel) pair, over ALL `image->count()` pixels. -/
def statsIndices (ops : MathOps) (a : StatsArgs) (j : ℤ) (i : ℕ) : ℤ :=
  valToBin ops (statsMinLog ops a) (statsDiffLog ops a) (((statsFlattened a).getD i default).eval j)

/-- The per-pixel histogram weight
(`alphaChannel ? alphaChannel->eval(j) : 1`, ImageCanvas.cpp:775). -/
def statsWeight (a : StatsArgs) (j : ℤ) : F :=
  match statsAlpha a with
  | some c => c.eval j
  | none => F.fin 1

/-- The raw (pre-density, pre-normalization) histogram of a statistics
request: the matrix immediately after the weighted accumulation phase
(ImageCanvas.cpp:773-777). -/
def rawHistogram (ops : MathOps) (a : StatsArgs) (b : ℤ) (i : ℕ) : F :=
  histColumn (fun j => statsIndices ops a j i) (statsWeight a) a.image.countN b

/-- The histogram after the per-bin density division
(ImageCanvas.cpp:779-781). -/
def densityHistogram (ops : MathOps) (a : StatsArgs) (b : ℤ) (i : ℕ) : F :=
  if 0 ≤ b ∧ b < 400 then
    fdiv (rawHistogram ops a b i)
      (fsub (binToVal ops (statsMinLog ops a) (statsDiffLog ops a) (b + 1))
        (binToVal ops (statsMinLog ops a) (statsDiffLog ops a) b))
  else rawHistogram ops a b i

/-- `ImageCanvas::computeCanvasStatistics` (ImageCanvas.cpp:655-791). -/
def computeCanvasStatistics (ops : MathOps) (a : StatsArgs) : CanvasStatistics :=
  let nChannels := statsNChannels a
  let acc := statsAccOf a
  let mean := if nChannels > 0 then fdiv acc.mean (F.fin (acc.pixelCount : ℚ)) else F.fin 0
  let minLog := statsMinLog ops a
  let diffLog := statsDiffLog ops a
  let histogramZero := valToBin ops minLog diffLog (F.fin 0)
  -- In the strange case of 0 channels, early return (ImageCanvas.cpp:756-759).
  if nChannels = 0 then
    { mean := mean, maximum := acc.maximum, minimum := acc.minimum
      histogram := fun _ _ => F.fin 0, nHistogramCols := 0, histogramZero := histogramZero }
  else
    let entries := histEntries (densityHistogram ops a) nChannels
    let sorted := sortF entries
    let divisor :=
      fmul (fmaxStd (sorted.getD (entries.length - 10) default) (F.fin (1 / 10)))
        (F.fin (13 / 10))
    { mean := mean, maximum := acc.maximum, minimum := acc.minimum
      histogram := fun b i => fdiv (densityHistogram ops a b i) divisor
      nHistogramCols := nChannels, histogramZero := histogramZero }

/-- RGB triples (finite values; the tonemap claims concern finite
inputs, so the tonemap layer is embedded over exact rationals). -/
abbrev V3 := ℚ × ℚ × ℚ

/-- `clamp(v, lo, hi)` on rationals. -/
def qclamp (v lo hi : ℚ) : ℚ := max lo (min v hi)

/-- Modelled from the spec: `toSRGB` (not under `src/`) — the standard
sRGB encoding `x ≤ 0.0031308 ? 12.92·x : 1.055·x^(1/2.4) − 0.055`. -/
def toSRGB (ops : MathOps) (linear : ℚ) : ℚ :=
  if linear ≤ 31308 / 10000000 then (1292 / 100) * linear
  else (1 + 55 / 1000) * ops.qpow linear (1 / (12 / 5)) - 55 / 1000

/-- The local `falseColor` lambda of the `FalseColor` tonemap case
(ImageCanvas.cpp:290-304), over the `colormap::turbo()` table. -/
def falseColorTurbo (ops : MathOps) (linear : ℚ) : V3 :=
  let fcd := ops.turbo
  let fcCount : ℕ := fcd.length / 4
  let r : ℚ := qclamp (linear * fcCount) 0 ((fcCount : ℚ) - 1)
  let ri : ℕ := ⌊r⌋.toNat
  let start0 := 4 * ri
  let start1 := 4 * (if ri = fcCount - 1 then ri else ri + 1)
  let alpha : ℚ := r - ri
  let v0 : V3 := (fcd.getD start0 0, fcd.getD (start0 + 1) 0, fcd.getD (start0 + 2) 0)
  let v1 : V3 := (fcd.getD start1 0, fcd.getD (start1 + 1) 0, fcd.getD (start1 + 2) 0)
  (alpha * v1.1 + (1 - alpha) * v0.1,
   alpha * v1.2.1 + (1 - alpha) * v0.2.1,
   alpha * v1.2.2 + (1 - alpha) * v0.2.2)

/-- The local `falseColor` lambda of the `FalseColorPPG` tonemap case
(ImageCanvas.cpp:330-347): a piecewise-linear 4-segment ramp. -/
def falseColorPPGRamp (v0 : ℚ) : V3 :=
  let v := qclamp v0 0 1
  if v < 1 / 4 then (0, 4 * v, 1)
  else if v < 1 / 2 then (0, 1, 1 + 4 * (1 / 4 - v))
  else if v < 3 / 4 then (4 * (v - 1 / 2), 1, 0)
  else (1, 1 + 4 * (3 / 4 - v), 0)

/-- `ImageCanvas::applyTonemap` (ImageCanvas.cpp:278-358).  Note that the
`Vector` case computes the sRGB encoding of the normalized vector and
then, lacking a `break`, falls through into the `FalseColorPPG` case,
which overwrites the result. -/
def applyTonemap (ops : MathOps) (value : V3) (gamma : ℚ) (tonemap : ETonemap) : V3 :=
  let result : V3 :=
    match tonemap with
    | .SRGB => (toSRGB ops value.1, toSRGB ops value.2.1, toSRGB ops value.2.2)
    | .Gamma =>
      (ops.qpow value.1 (1 / gamma), ops.qpow value.2.1 (1 / gamma),
       ops.qpow value.2.2 (1 / gamma))
    | .FalseColor =>
      let v := ops.qlog2 ((value.1 + value.2.1 + value.2.2) / 3 + 1 / 32) / 10 + 1 / 2
      falseColorTurbo ops v
    | .PositiveNegative =>
      ((-2) * ((min value.1 0 + min value.2.1 0 + min value.2.2 0) / 3),
       2 * ((max value.1 0 + max value.2.1 0 + max value.2.2 0) / 3), 0)
    | .Complex => (0, 0, 0)
    | .Vector =>
      let n := ops.qsqrt (value.1 ^ 2 + value.2.1 ^ 2 + value.2.2 ^ 2)
      if n = 0 then value
      else
        let tmpvalue : V3 := (value.1 / n, value.2.1 / n, value.2.2 / n)
        let _vecResult : V3 :=
          (toSRGB ops ((1 / 2) * (1 + tmpvalue.1)),
           toSRGB ops ((1 / 2) * (1 + tmpvalue.2.1)),
           toSRGB ops ((1 / 2) * (1 + tmpvalue.2.2)))
        -- `_vecResult` is dead: control falls through to FalseColorPPG.
        falseColorPPGRamp (ops.qpow value.1 (1 / (11 / 5)))
    | .FalseColorPPG => falseColorPPGRamp (ops.qpow value.1 (1 / (11 / 5)))
  (min (max result.1 0) 1, min (max result.2.1 0) 1, min (max result.2.2 0) 1)

/-- The `Vector` tonemap as the spec words it (for comparison with the
code): normalize to unit length, map each axis `a` to `sRGB((1 + a)/2)`,
clamp to `[0, 1]` per channel; the zero vector maps to itself. -/
def specVectorTonemap (ops : MathOps) (value : V3) : V3 :=
  let n := ops.qsqrt (value.1 ^ 2 + value.2.1 ^ 2 + value.2.2 ^ 2)
  let result : V3 :=
    if n = 0 then value
    else
      (toSRGB ops ((1 / 2) * (1 + value.1 / n)),
       toSRGB ops ((1 / 2) * (1 + value.2.1 / n)),
       toSRGB ops ((1 / 2) * (1 + value.2.2 / n)))
  (min (max result.1 0) 1, min (max result.2.1 0) 1, min (max result.2.2 0) 1)

/-- A flat float buffer (`std::vector<float>`), as a size plus a total
cell function. -/
structure Buf where
  size : ℕ
  get : ℕ → F

/-- Write one cell. -/
def Buf.set (b : Buf) (p : ℕ) (v : F) : Buf :=
  { b with get := Function.update b.get p v }

/-- `ImageCanvas::getHdrImageData` (ImageCanvas.cpp:392-441).  The
`parallelFor` dispatches write disjoint cells and are embedded as
sequential folds.  Each composite channel holds `image->count()` samples,
so the per-channel inner loop bound `channelData.size()` is `numPixels`. -/
def getHdrImageData (image reference : Option Image) (requestedChannelGroup : String)
    (metric : EMetric) (postProcessing : EPostProcessing) (divideAlpha : Bool) : Buf :=
  match image with
  | none => { size := 0, get := fun _ => F.fin 0 }
  | some img =>
    let channels := channelsFromImages (some img) reference requestedChannelGroup metric
      postProcessing
    let numPixels := img.countN
    if channels.isEmpty then { size := 0, get := fun _ => F.fin 0 }
    else
      let nChannelsToSave := min channels.length 4
      let buf0 : Buf := { size := 4 * numPixels, get := fun _ => F.fin 0 }
      let buf1 := (List.range nChannelsToSave).foldl (fun b i =>
        (List.range numPixels).foldl (fun b j =>
          b.set (j * 4 + i) ((channels.getD i default).eval (j : ℤ))) b) buf0
      -- Manually set alpha channel to 1 if the image does not have one.
      let buf2 :=
        if nChannelsToSave < 4 then
          (List.range numPixels).foldl (fun b j => b.set (j * 4 + 3) (F.fin 1)) buf1
        else buf1
      -- Divide alpha out if needed (for storing in non-premultiplied formats).
      if divideAlpha then
        (List.range (min nChannelsToSave 3)).foldl (fun b i =>
          (List.range numPixels).foldl (fun b j =>
            let alpha := b.get (j * 4 + 3)
            if alpha = F.fin 0 then b.set (j * 4 + i) (F.fin 0)
            else b.set (j * 4 + i) (fdiv (b.get (j * 4 + i)) alpha)) b) buf2
      else buf2

/-- Modelled from the spec: `join(strings, ",")` — the comma-joined
selected channel names. -/
def joinComma (l : List String) : String := String.intercalate "," l

/-- The cache fingerprint built by `ImageCanvas::canvasStatistics`
(ImageCanvas.cpp:522-533): with a reference,
`"<id>-<channels>-<refId>-<metric>-<postProcessing>"`; without one,
`"<id>-<channels>-<postProcessing>"`; with cropping enabled, the four
crop corner values are appended. -/
def statisticsKey (imageId : ℕ) (channels : String) (referenceId : Option ℕ)
    (metric : EMetric) (postProcessing : EPostProcessing) (isCropped : Bool)
    (cropMin cropMax : ℤ × ℤ) : String :=
  let key :=
    match referenceId with
    | some rid =>
      toString imageId ++ "-" ++ channels ++ "-" ++ toString rid ++ "-" ++
        toString (metricNum metric) ++ "-" ++ toString (ppNum postProcessing)
    | none =>
      toString imageId ++ "-" ++ channels ++ "-" ++ toString (ppNum postProcessing)
  if isCropped then
    key ++ "-crop" ++ "-" ++ toString cropMin.1 ++ "-" ++ toString cropMin.2 ++ "-" ++
      toString cropMax.1 ++ "-" ++ toString cropMax.2
  else key

/-- The `ImageCanvas` fields feeding `canvasStatistics`, plus the result
cache `mMeanValues` and a model of the `Lazy` handles.  Modelled from the
spec: the `Lazy` class is not under `src/`; §4.4's shared handle to a
(possibly still-running) computation is represented by a handle number,
`nextHandle` numbers freshly created handles, and `scheduled` records one
entry per `computeAsync` scheduling of an underlying computation. -/
structure CanvasState where
  image : Option Image
  reference : Option Image
  requestedChannelGroup : String
  metric : EMetric
  postProcessing : EPostProcessing
  isCropped : Bool
  cropMin : ℤ × ℤ
  cropMax : ℤ × ℤ
  meanValues : List (String × ℕ)
  nextHandle : ℕ
  scheduled : List ℕ

/-- The key `canvasStatistics` builds for the current state. -/
def CanvasState.key (s : CanvasState) (img : Image) : String :=
  statisticsKey img.id (joinComma (img.channelsInGroup s.requestedChannelGroup))
    (s.reference.map Image.id) s.metric s.postProcessing s.isCropped s.cropMin s.cropMax

/-- `ImageCanvas::canvasStatistics` (ImageCanvas.cpp:516-563): the
returned handle (`none` models the `nullptr` returned when no image is
set) together with the successor state.  An existing cache entry is
returned as-is; otherwise a fresh entry is inserted and its computation
scheduled exactly once. -/
def canvasStatisticsStep (s : CanvasState) : Option ℕ × CanvasState :=
  match s.image with
  | none => (none, s)
  | some img =>
    let key := s.key img
    match s.meanValues.lookup key with
    | some h => (some h, s)
    | none =>
      let h := s.nextHandle
      (some h,
        { s with
          meanValues := (key, h) :: s.meanValues
          nextHandle := h + 1
          scheduled := s.scheduled ++ [h] })

/-! ## Concrete fixtures used by witnesses and counterexamples -/

/-- A 2×1 single-channel image with samples 5 and 7. -/
def chanC1 : Channel := ⟨"L", 2, 1, fun j => if j = 0 then F.fin 5 else F.fin 7⟩

def imgC1 : Image := ⟨1, 2, 1, fun _ => ["L"], fun _ => chanC1⟩

/-- A statistics request on `imgC1` whose enabled crop rectangle contains
only the pixel (0, 0). -/
def argsC1 : StatsArgs :=
  ⟨imgC1, none, "G", .Error, .Identity, true, (0, 0), (1, 1)⟩

/-- The spec's end-to-end example: a 2×2 single-channel image with
samples [1, 2, 3, NaN]. -/
def chanC4 : Channel :=
  ⟨"L", 2, 2, fun j =>
    if j = 0 then F.fin 1 else if j = 1 then F.fin 2 else if j = 2 then F.fin 3 else F.nan⟩

def imgC4 : Image := ⟨2, 2, 2, fun _ => ["L"], fun _ => chanC4⟩

def argsC4 : StatsArgs :=
  ⟨imgC4, none, "G", .Error, .Identity, false, (0, 0), (0, 0)⟩

/-- A 1×1 single-channel image whose only sample is NaN. -/
def chanC9 : Channel := ⟨"L", 1, 1, fun _ => F.nan⟩

def imgC9 : Image := ⟨3, 1, 1, fun _ => ["L"], fun _ => chanC9⟩

def argsC9 : StatsArgs :=
  ⟨imgC9, none, "G", .Error, .Identity, false, (0, 0), (0, 0)⟩

/-- 1×1 channels for the alpha-averaging claims. -/
def chanC8R : Channel := ⟨"R", 1, 1, fun _ => F.fin 1⟩

def chanC8A : Channel := ⟨"A", 1, 1, fun _ => F.fin 4⟩

/-- A 1×1 primary image with channels R and A. -/
def imgC8P : Image :=
  ⟨4, 1, 1, fun _ => ["R", "A"], fun n => if n = "A" then chanC8A else chanC8R⟩

/-- A 1×1 reference image with only channel R (fewer channels than the
primary). -/
def imgC8Ref : Image := ⟨5, 1, 1, fun _ => ["R"], fun _ => chanC8R⟩

/-- 2×2 primary channels for the centering-offset witness. -/
def chanW8PR : Channel := ⟨"R", 2, 2, fun _ => F.fin 1⟩

def chanW8PA : Channel := ⟨"A", 2, 2, fun _ => F.fin 1⟩

/-- 4×4 reference channels; the alpha sample at (1, 1) (flat index 5) is 3. -/
def chanW8RR : Channel := ⟨"R", 4, 4, fun _ => F.fin 2⟩

def chanW8RA : Channel := ⟨"A", 4, 4, fun j => if j = 5 then F.fin 3 else F.fin 9⟩

def imgW8P : Image :=
  ⟨6, 2, 2, fun _ => ["R", "A"], fun n => if n = "A" then chanW8PA else chanW8PR⟩

def imgW8R : Image :=
  ⟨7, 4, 4, fun _ => ["R", "A"], fun n => if n = "A" then chanW8RA else chanW8RR⟩

/-- A canvas state with `imgC1` loaded, no reference, and an empty cache. -/
def stateC5 : CanvasState :=
  ⟨some imgC1, none, "G", .Error, .Identity, false, (0, 0), (0, 0), [], 0, []⟩

/-! ## Algebraic infrastructure on `F` -/

/-- `fadd` is a commutative monoid operation with identity `F.fin 0`;
this lets the accumulated histogram be reasoned about with finite sums. -/
instance : Zero F := ⟨F.fin 0⟩

instance : Add F := ⟨fadd⟩

instance : AddCommMonoid F where
  add := fadd
  zero := F.fin 0
  add_assoc a b c := by
    cases a <;> cases b <;> cases c <;>
      first
        | rfl
        | (rename_i x y z; exact congrArg F.fin (add_assoc x y z))
  zero_add a := by
    cases a <;> first | rfl | (rename_i x; exact congrArg F.fin (zero_add x))
  add_zero a := by
    cases a <;> first | rfl | (rename_i x; exact congrArg F.fin (add_zero x))
  add_comm a b := by
    cases a <;> cases b <;>
      first
        | rfl
        | (rename_i x y; exact congrArg F.fin (add_comm x y))
  nsmul := nsmulRec

/-! ## Helper lemmas -/

theorem fadd_eq_add (a b : F) : fadd a b = a + b := rfl

theorem histColumn_succ (idx : ℤ → ℤ) (w : ℤ → F) (n : ℕ) :
    histColumn idx w (n + 1) =
      Function.update (histColumn idx w n) (idx (n : ℤ))
        (fadd (histColumn idx w n (idx (n : ℤ))) (w (n : ℤ))) := by
  unfold histColumn
  rw [List.range_succ, List.foldl_append]
  rfl

theorem histColumn_eq_sum (idx : ℤ → ℤ) (w : ℤ → F) (n : ℕ) (b : ℤ) :
    histColumn idx w n b =
      ∑ j ∈ Finset.range n, (if idx (j : ℤ) = b then w (j : ℤ) else 0) := by
  induction n with
  | zero => rfl
  | succ n ih =>
    rw [histColumn_succ, Finset.sum_range_succ]
    by_cases hb : b = idx (n : ℤ)
    · subst hb
      rw [Function.update_same, ih, if_pos rfl, fadd_eq_add]
    · rw [Function.update_noteq hb, ih, if_neg (fun h => hb h.symm), add_zero]

theorem histColumn_total (idx : ℤ → ℤ) (w : ℤ → F) (n : ℕ)
    (h : ∀ j ∈ Finset.range n, 0 ≤ idx (j : ℤ) ∧ idx (j : ℤ) < 400) :
    ∑ b ∈ Finset.range 400, histColumn idx w n (b : ℤ) =
      ∑ j ∈ Finset.range n, w (j : ℤ) := by
  simp only [histColumn_eq_sum]
  rw [Finset.sum_comm]
  refine Finset.sum_congr rfl (fun j hj => ?_)
  obtain ⟨h0, h1⟩ := h j hj
  rw [Finset.sum_eq_single (idx (j : ℤ)).toNat]
  · have hc : (((idx (j : ℤ)).toNat : ℕ) : ℤ) = idx (j : ℤ) := Int.toNat_of_nonneg h0
    rw [hc, if_pos rfl]
  · intro b _ hne
    rw [if_neg]
    intro hEq
    exact hne (by omega)
  · intro hmem
    exact absurd (Finset.mem_range.mpr (by omega)) hmem

theorem valToBin_nonneg (ops : MathOps) (minLog diffLog v : F) :
    0 ≤ valToBin ops minLog diffLog v := le_max_left _ _

theorem valToBin_lt_400 (ops : MathOps) (minLog diffLog v : F) :
    valToBin ops minLog diffLog v < 400 := by
  unfold valToBin clampInt
  apply max_lt (by norm_num)
  exact lt_of_le_of_lt (min_le_right _ _) (by norm_num)

/-- The raw histogram partitions the total weight of ALL image pixels:
each of the `image->count()` flat pixel indices lands in exactly one of
the 400 bins (the clamp in `valToBin` guarantees the range), so the row
totals of a column equal the total weight, crop or no crop. -/
theorem rawHistogram_total (ops : MathOps) (a : StatsArgs) (i : ℕ) :
    ∑ b ∈ Finset.range 400, rawHistogram ops a (b : ℤ) i =
      ∑ j ∈ Finset.range a.image.countN, statsWeight a (j : ℤ) := by
  unfold rawHistogram
  exact histColumn_total _ _ _
    (fun j _ => ⟨valToBin_nonneg _ _ _ _, valToBin_lt_400 _ _ _ _⟩)

theorem getD_range_map {α : Type} (g : ℕ → α) (n i : ℕ) (d : α) (h : i < n) :
    ((List.range n).map g).getD i d = g i := by
  rw [List.getD_eq_getElem?_getD, List.getElem?_map, List.getElem?_range h]
  rfl

theorem foldl_fixed {α β : Type} {l : List α} {f : β → α → β} {b : β}
    (h : ∀ acc x, x ∈ l → f acc x = acc) : l.foldl f b = b := by
  induction l generalizing b with
  | nil => rfl
  | cons x t ih =>
    rw [List.foldl_cons, h b x (List.mem_cons_self x t)]
    exact ih (fun acc y hy => h acc y (List.mem_cons_of_mem _ hy))

theorem foldl_buf_size {α : Type} (l : List α) (f : Buf → α → Buf) (b : Buf)
    (h : ∀ b x, (f b x).size = b.size) : (l.foldl f b).size = b.size := by
  induction l generalizing b with
  | nil => rfl
  | cons a t ih => rw [List.foldl_cons, ih (f b a), h]

theorem foldl_set_get_notin {α : Type} (pos : α → ℕ) (val : α → F) (p : ℕ) :
    ∀ (l : List α) (b : Buf), (∀ x ∈ l, pos x ≠ p) →
      (l.foldl (fun b y => b.set (pos y) (val y)) b).get p = b.get p := by
  intro l
  induction l with
  | nil => intro b _; rfl
  | cons a t ih =>
    intro b h
    rw [List.foldl_cons, ih _ (fun x hx => h x (List.mem_cons_of_mem _ hx))]
    exact Function.update_noteq (Ne.symm (h a (List.mem_cons_self a t))) _ _

theorem foldl_set_get_mem {α : Type} (pos : α → ℕ) (val : α → F) (x : α) :
    ∀ (l : List α) (b : Buf), x ∈ l → l.Nodup → (∀ y ∈ l, pos y = pos x → y = x) →
      (l.foldl (fun b y => b.set (pos y) (val y)) b).get (pos x) = val x := by
  intro l
  induction l with
  | nil => intro b hmem; cases hmem
  | cons a t ih =>
    intro b hmem hnd hinj
    rw [List.foldl_cons]
    rcases List.mem_cons.mp hmem with heq | hmem'
    · subst heq
      have hxt : x ∉ t := (List.nodup_cons.mp hnd).1
      rw [foldl_set_get_notin pos val (pos x) t _ ?_]
      · exact Function.update_same _ _ _
      · intro y hy hpy
        exact absurd ((hinj y (List.mem_cons_of_mem _ hy) hpy) ▸ hy) hxt
    · exact ih _ hmem' (List.nodup_cons.mp hnd).2
        (fun y hy => hinj y (List.mem_cons_of_mem _ hy))

/-- Cell contents after the interleaved channel-writing phase of
`getHdrImageData`. -/
theorem writeChannels_get (channels : List Channel) (numPixels : ℕ) :
    ∀ (n : ℕ), n ≤ 4 → ∀ (b : Buf) (j i : ℕ), j < numPixels → i < 4 →
      ((List.range n).foldl (fun b i' =>
          (List.range numPixels).foldl
            (fun b j' => b.set (j' * 4 + i') ((channels.getD i' default).eval (j' : ℤ))) b)
        b).get (j * 4 + i) =
      if i < n then (channels.getD i default).eval (j : ℤ) else b.get (j * 4 + i) := by
  intro n
  induction n with
  | zero =>
    intro _ b j i _ _
    simp
  | succ n ih =>
    intro hn b j i hj hi
    rw [List.range_succ, List.foldl_append, List.foldl_cons, List.foldl_nil]
    by_cases hin : i = n
    · subst hin
      rw [foldl_set_get_mem (fun j' => j' * 4 + i)
        (fun j' => (channels.getD i default).eval (j' : ℤ)) j (List.range numPixels) _
        (List.mem_range.mpr hj) (List.nodup_range _)
        (fun y _ hpy => by simp only [] at hpy; omega)]
      rw [if_pos (Nat.lt_succ_self i)]
    · have hne : ∀ y ∈ List.range numPixels, y * 4 + n ≠ j * 4 + i := by
        intro y _
        omega
      rw [foldl_set_get_notin (fun j' => j' * 4 + n)
        (fun j' => (channels.getD n default).eval (j' : ℤ)) (j * 4 + i)
        (List.range numPixels) _ hne]
      rw [ih (by omega) b j i hj hi]
      simp only [show (i < n) ↔ (i < n + 1) from by omega]

/-- Cell contents after the alpha-fill phase of `getHdrImageData`. -/
theorem alphaFill_get (numPixels : ℕ) (b : Buf) (j i : ℕ) (hj : j < numPixels)
    (hi : i < 4) :
    ((List.range numPixels).foldl (fun b j' => b.set (j' * 4 + 3) (F.fin 1)) b).get
      (j * 4 + i) =
      if i = 3 then F.fin 1 else b.get (j * 4 + i) := by
  by_cases h3 : i = 3
  · subst h3
    rw [show j * 4 + 3 = (fun j' => j' * 4 + 3) j from rfl]
    rw [foldl_set_get_mem (fun j' => j' * 4 + 3) (fun _ => F.fin 1) j (List.range numPixels)
      _ (List.mem_range.mpr hj) (List.nodup_range _)
      (fun y _ hpy => by simp only [] at hpy; omega)]
    rw [if_pos rfl]
  · rw [foldl_set_get_notin (fun j' => j' * 4 + 3) (fun _ => F.fin 1) (j * 4 + i)
      (List.range numPixels) _ (fun y _ => by simp only []; omega)]
    rw [if_neg h3]

/-! ## Claim theorems -/

/-- C1 (amended): the histogram accumulation phase runs over every flat
pixel index of the ENTIRE image, so for every data channel the
pre-normalization weighted row totals across all 400 bins equal the total
weight over ALL image pixels (the designated alpha-weight where present,
else 1 per sample, NaN samples included) — not merely over the crop
rectangle. -/
theorem C1_histogram_row_totals (ops : MathOps) (a : StatsArgs) (i : ℕ)
    (_hi : i < statsNChannels a) :
    ∑ b ∈ Finset.range 400, rawHistogram ops a (b : ℤ) i =
      ∑ j ∈ Finset.range a.image.countN, statsWeight a (j : ℤ) :=
  rawHistogram_total ops a i

/-- C1 witness: the amended row-total identity at the concrete cropped
request `argsC1`. -/
theorem C1_histogram_row_totals_witness :
    0 < statsNChannels argsC1 ∧
    ∑ b ∈ Finset.range 400, rawHistogram concreteOps argsC1 (b : ℤ) 0 =
      ∑ j ∈ Finset.range argsC1.image.countN, statsWeight argsC1 (j : ℤ) :=
  ⟨by decide, C1_histogram_row_totals concreteOps argsC1 0 (by decide)⟩

/-- C1 counterexample: for the 2×1 image `imgC1` with an enabled crop
rectangle containing only pixel (0, 0), the claim demands a
pre-normalization row total of 1 (the single valid unweighted sample in
the crop rectangle); the code accumulates both image pixels, giving 2. -/
theorem C1_counterexample :
    ¬ (∑ b ∈ Finset.range 400, rawHistogram concreteOps argsC1 (b : ℤ) 0 = F.fin 1) := by
  rw [rawHistogram_total concreteOps argsC1 0]
  rw [show (∑ j ∈ Finset.range argsC1.image.countN, statsWeight argsC1 (j : ℤ)) =
    F.fin (1 + (1 + 0)) from rfl]
  intro h
  have h2 := F.fin.inj h
  norm_num at h2

/-- C4 (amended): for the spec's 2×2 example [1, 2, 3, NaN] (metric
Error, no reference, Identity, crop disabled) the NaN sample is excluded
from mean/min/max and from the mean's denominator — mean 2, minimum 1,
maximum 3 — but it is NOT excluded from the histogram: it lands in the
bin produced by casting NaN to int (clamped into [0, 399]), so the
pre-normalization row total is 4, counting the NaN sample. -/
theorem C4_nan_statistics (ops : MathOps) :
    (computeCanvasStatistics ops argsC4).mean = F.fin 2 ∧
    (computeCanvasStatistics ops argsC4).minimum = F.fin 1 ∧
    (computeCanvasStatistics ops argsC4).maximum = F.fin 3 ∧
    ∑ b ∈ Finset.range 400, rawHistogram ops argsC4 (b : ℤ) 0 = F.fin 4 := by
  refine ⟨?_, rfl, rfl, ?_⟩
  · rw [show (computeCanvasStatistics ops argsC4).mean =
      F.fin ((0 + 1 + 2 + 3) / ((3 : ℕ) : ℚ)) from rfl]
    norm_num
  · rw [rawHistogram_total ops argsC4 0]
    rw [show (∑ j ∈ Finset.range argsC4.image.countN, statsWeight argsC4 (j : ℤ)) =
      F.fin (1 + (1 + (1 + (1 + 0)))) from rfl]
    norm_num

/-- C4 counterexample: the claim says the NaN sample contributes nothing
to any histogram bin, which would give a pre-normalization row total of 3
(the three valid unweighted samples); the code's total is 4. -/
theorem C4_counterexample :
    ¬ (∑ b ∈ Finset.range 400, rawHistogram concreteOps argsC4 (b : ℤ) 0 = F.fin 3) := by
  rw [rawHistogram_total concreteOps argsC4 0]
  rw [show (∑ j ∈ Finset.range argsC4.image.countN, statsWeight argsC4 (j : ℤ)) =
    F.fin (1 + (1 + (1 + (1 + 0)))) from rfl]
  intro h
  have h2 := F.fin.inj h
  norm_num at h2

/-- C9: when every (channel, pixel) sample over the resolved crop
rectangle is NaN (in particular when the rectangle is empty) while at
least one data channel exists, the accumulator never fires: the returned
mean is `0 / 0` = NaN, the minimum stays +∞ and the maximum stays −∞,
and the computation completes without fault. -/
theorem C9_degenerate_crop (ops : MathOps) (a : StatsArgs)
    (hn : 0 < statsNChannels a)
    (hnan : ∀ i ∈ List.range (statsNChannels a),
      ∀ y ∈ intRange (statsCrop a).1.2 (statsCrop a).2.2,
        ∀ x ∈ intRange (statsCrop a).1.1 (statsCrop a).2.1,
          fisnan (((statsFlattened a).getD i default).eval (x + y * a.image.width)) = true) :
    (computeCanvasStatistics ops a).mean = F.nan ∧
    (computeCanvasStatistics ops a).minimum = F.pinf ∧
    (computeCanvasStatistics ops a).maximum = F.ninf := by
  have hacc : statsAccOf a =
      { mean := F.fin 0, maximum := F.ninf, minimum := F.pinf, pixelCount := 0 } := by
    unfold statsAccOf statsLoop
    apply foldl_fixed
    intro acc i hi
    apply foldl_fixed
    intro acc2 y hy
    apply foldl_fixed
    intro acc3 x hx
    simp only [hnan i hi y hy x hx, if_true]
  have hne : ¬ statsNChannels a = 0 := Nat.pos_iff_ne_zero.mp hn
  unfold computeCanvasStatistics
  rw [hacc, if_neg hne]
  refine ⟨?_, rfl, rfl⟩
  simp only [gt_iff_lt, hn, if_pos, Nat.cast_zero]
  rfl

/-- C7 (amended): for any image used as both primary and reference with
metric Error, every composite sample of every non-alpha output channel at
a pixel whose primary sample is finite equals `PostProcessing(0)`, for
every post-processing variant.  (For NaN or infinite samples the float
subtraction `v − v` is NaN, see the counterexample.) -/
theorem C7_error_metric_self (img : Image) (group : String) (pp : EPostProcessing)
    (i : ℕ) (x y : ℤ) (q : ℚ)
    (hi : i < (img.channelsInGroup group).length)
    (hx0 : 0 ≤ x) (hxw : x < img.width) (_hy0 : 0 ≤ y) (_hyh : y < img.height)
    (hname : ((img.channelsInGroup group).map (fun n => toUpperStr (channelTail n))).getD i ""
        = "A" →
      ((img.channelsInGroup group).map (fun n => toUpperStr (channelTail n))).all
        (fun n => n = "A") = true)
    (hq : (img.channel ((img.channelsInGroup group).getD i "")).eval2 x y = F.fin q) :
    ((channelsFromImages (some img) (some img) group .Error pp).getD i default).eval
      (x + y * img.width) = applyPostProcessing (F.fin 0) pp := by
  have hw : (0 : ℤ) < img.width := lt_of_le_of_lt hx0 hxw
  have hmod : (x + y * img.width) % img.width = x := by
    rw [Int.add_mul_emod_self]
    exact Int.emod_eq_of_lt hx0 hxw
  have hdiv : (x + y * img.width) / img.width = y := by
    rw [Int.add_mul_ediv_right _ _ (ne_of_gt hw), Int.ediv_eq_zero_of_lt hx0 hxw, zero_add]
  simp only [channelsFromImages]
  rw [getD_range_map _ _ _ _ hi]
  simp only [Channel.eval]
  rw [hmod, hdiv]
  rw [if_pos hi]
  rw [if_neg (fun h => h.1 (hname h.2))]
  simp only [sub_self, Int.zero_tdiv, add_zero]
  rw [hq]
  have hm : applyMetric (F.fin q) (F.fin q) .Error = F.fin 0 := by
    show F.fin (q + -q) = F.fin 0
    rw [add_neg_cancel]
  rw [hm]

/-- C7 witness: the amended statement at `imgC1` compared against itself
(pixel (0, 0), sample 5, Identity post-processing). -/
theorem C7_error_metric_self_witness :
    (imgC1.channel ((imgC1.channelsInGroup "G").getD 0 "")).eval2 0 0 = F.fin 5 ∧
    ((channelsFromImages (some imgC1) (some imgC1) "G" .Error .Identity).getD 0 default).eval
      (0 + 0 * imgC1.width) = applyPostProcessing (F.fin 0) .Identity :=
  ⟨rfl, C7_error_metric_self imgC1 "G" .Identity 0 0 0 5 (by decide) (by decide) (by decide)
    (by decide) (by decide) (by decide) rfl⟩

/-- C7 counterexample: `imgC9`'s single sample is NaN; compared against
itself with metric Error and Identity post-processing, the composite
sample is `NaN − NaN = NaN`, not `PostProcessing(0) = 0` — so the claim's
"every composite sample" fails on NaN samples. -/
theorem C7_counterexample :
    ((channelsFromImages (some imgC9) (some imgC9) "G" .Error .Identity).getD 0 default).eval 0 ≠
      applyPostProcessing (F.fin 0) .Identity := by
  decide

/-- C8 (amended): with a reference present, an output channel named "A"
(and the composite not entirely alpha) is never put through the metric or
post-processing; its sample at pixel (x, y) is
`0.5 × (primary + reference at (x, y) + offset)` with
`offset = (referenceSize − primarySize) / 2` — but only when the
reference has a channel at the same index; otherwise the primary alpha
sample is copied unchanged (not averaged against a zero). -/
theorem C8_alpha_average (img ref : Image) (group : String) (metric : EMetric)
    (pp : EPostProcessing) (i : ℕ) (x y : ℤ)
    (hi : i < (img.channelsInGroup group).length)
    (hx0 : 0 ≤ x) (hxw : x < img.width) (_hy0 : 0 ≤ y) (_hyh : y < img.height)
    (hA : ((img.channelsInGroup group).map (fun n => toUpperStr (channelTail n))).getD i ""
        = "A")
    (hnotall : ¬ ((img.channelsInGroup group).map (fun n => toUpperStr (channelTail n))).all
        (fun n => n = "A") = true) :
    ((channelsFromImages (some img) (some ref) group metric pp).getD i default).eval
      (x + y * img.width) =
      if i < (ref.channelsInGroup group).length then
        fmul (F.fin (1 / 2))
          (fadd ((img.channel ((img.channelsInGroup group).getD i "")).eval2 x y)
            ((ref.channel ((ref.channelsInGroup group).getD i "")).eval2
              (x + (ref.width - img.width).tdiv 2) (y + (ref.height - img.height).tdiv 2)))
      else (img.channel ((img.channelsInGroup group).getD i "")).eval2 x y := by
  have hw : (0 : ℤ) < img.width := lt_of_le_of_lt hx0 hxw
  have hmod : (x + y * img.width) % img.width = x := by
    rw [Int.add_mul_emod_self]
    exact Int.emod_eq_of_lt hx0 hxw
  have hdiv : (x + y * img.width) / img.width = y := by
    rw [Int.add_mul_ediv_right _ _ (ne_of_gt hw), Int.ediv_eq_zero_of_lt hx0 hxw, zero_add]
  simp only [channelsFromImages]
  rw [getD_range_map _ _ _ _ hi]
  simp only [Channel.eval]
  rw [hmod, hdiv]
  by_cases href : i < (ref.channelsInGroup group).length
  · rw [if_pos href, if_pos ⟨hnotall, hA⟩, if_pos href]
  · rw [if_neg href, if_pos ⟨hnotall, hA⟩, if_neg href]

/-- C8 witness: a 2×2 primary and a 4×4 reference give offset (1, 1); the
alpha output at pixel (0, 0) averages the primary alpha sample with the
reference alpha sample at (1, 1). -/
theorem C8_alpha_average_witness :
    0 < (imgW8P.channelsInGroup "G").length ∧
    ((channelsFromImages (some imgW8P) (some imgW8R) "G" .Error .Identity).getD 1 default).eval
      (0 + 0 * imgW8P.width) =
      if 1 < (imgW8R.channelsInGroup "G").length then
        fmul (F.fin (1 / 2))
          (fadd ((imgW8P.channel ((imgW8P.channelsInGroup "G").getD 1 "")).eval2 0 0)
            ((imgW8R.channel ((imgW8R.channelsInGroup "G").getD 1 "")).eval2
              (0 + (imgW8R.width - imgW8P.width).tdiv 2)
              (0 + (imgW8R.height - imgW8P.height).tdiv 2)))
      else (imgW8P.channel ((imgW8P.channelsInGroup "G").getD 1 "")).eval2 0 0 :=
  ⟨by decide, C8_alpha_average imgW8P imgW8R "G" .Error .Identity 1 0 0 (by decide) (by decide)
    (by decide) (by decide) (by decide) (by decide) (by decide)⟩

/-- C8 counterexample: the primary `imgC8P` has channels [R, A] but the
reference `imgC8Ref` has only [R]; the alpha output copies the primary
sample 4 unchanged, whereas the claim's formula — reading the missing
reference sample as zero per the spec's "missing reference data …
treated as a zero reference value" — demands 0.5 × (4 + 0) = 2. -/
theorem C8_counterexample :
    ((channelsFromImages (some imgC8P) (some imgC8Ref) "G" .Error .Identity).getD 1
      default).eval 0 = F.fin 4 ∧
    F.fin 4 ≠ fmul (F.fin (1 / 2)) (fadd (F.fin 4) (F.fin 0)) := by
  refine ⟨by decide, fun h => ?_⟩
  rw [show fmul (F.fin (1 / 2)) (fadd (F.fin 4) (F.fin 0)) = F.fin (1 / 2 * (4 + 0)) from rfl]
    at h
  have h2 := F.fin.inj h
  norm_num at h2

/-- C2 counterexample: with no reference image, two requests that differ
only in the metric variant produce the SAME fingerprint — the
no-reference key format `"%d-%s-%d"` omits the metric. -/
theorem C2_counterexample :
    statisticsKey 1 "L" none .Error .Identity false (0, 0) (0, 0) =
      statisticsKey 1 "L" none .AbsoluteError .Identity false (0, 0) (0, 0) := by
  decide

/-- C2 (amended): the fingerprint is built from the primary image id, the
comma-joined channel names, the reference image id, the metric variant id
and the post-processing variant id — the metric being included ONLY when
a reference image is set (plus the crop corners when cropping is
enabled); consequently, with a reference set, two requests that differ
only in the metric variant produce different fingerprints. -/
theorem C2_key_includes_metric_with_reference (imageId : ℕ) (channels : String) (rid : ℕ)
    (m1 m2 : EMetric) (pp : EPostProcessing) (isCropped : Bool) (cropMin cropMax : ℤ × ℤ)
    (hm : m1 ≠ m2) :
    statisticsKey imageId channels (some rid) m1 pp isCropped cropMin cropMax ≠
      statisticsKey imageId channels (some rid) m2 pp isCropped cropMin cropMax := by
  intro h
  apply hm
  have hd := congrArg String.data h
  cases isCropped <;>
    simp only [statisticsKey, if_true, if_false, Bool.false_eq_true, String.data_append,
      List.append_assoc] at hd
  case false =>
    replace hd := List.append_cancel_left hd
    replace hd := List.append_cancel_left hd
    replace hd := List.append_cancel_left hd
    replace hd := List.append_cancel_left hd
    replace hd := List.append_cancel_left hd
    replace hd := List.append_cancel_left hd
    replace hd := List.append_cancel_right hd
    cases m1 <;> cases m2 <;> first | rfl | exact absurd hd (by decide)
  case true =>
    replace hd := List.append_cancel_left hd
    replace hd := List.append_cancel_left hd
    replace hd := List.append_cancel_left hd
    replace hd := List.append_cancel_left hd
    replace hd := List.append_cancel_left hd
    replace hd := List.append_cancel_left hd
    replace hd := List.append_cancel_right hd
    cases m1 <;> cases m2 <;> first | rfl | exact absurd hd (by decide)

/-- C2 witness: the amended distinctness at concrete inputs (reference id
2, metrics Error vs AbsoluteError). -/
theorem C2_key_includes_metric_with_reference_witness :
    EMetric.Error ≠ EMetric.AbsoluteError ∧
    statisticsKey 1 "L" (some 2) .Error .Identity false (0, 0) (0, 0) ≠
      statisticsKey 1 "L" (some 2) .AbsoluteError .Identity false (0, 0) (0, 0) :=
  ⟨by decide,
    C2_key_includes_metric_with_reference 1 "L" 2 .Error .AbsoluteError .Identity false
      (0, 0) (0, 0) (by decide)⟩

/-- C5: the statistics cache is memoizing: a second request on the state
produced by a first request returns the identical handle and leaves the
state (cache, handle counter, scheduled computations) unchanged; across
the two requests at most one computation is scheduled; and when an entry
for the fingerprint already exists, that entry's handle is returned with
the state unchanged (the compute closure is never re-scheduled). -/
theorem C5_cache_memoizing (s : CanvasState) (img : Image) (h : s.image = some img) :
    canvasStatisticsStep (canvasStatisticsStep s).2 = canvasStatisticsStep s ∧
    (canvasStatisticsStep s).2.scheduled.length ≤ s.scheduled.length + 1 ∧
    (s.meanValues.lookup (s.key img) = none ∨
      canvasStatisticsStep s = (s.meanValues.lookup (s.key img), s)) := by
  cases hlk : s.meanValues.lookup (s.key img) with
  | some h0 =>
    have h1 : canvasStatisticsStep s = (some h0, s) := by
      simp only [canvasStatisticsStep, h, hlk]
    refine ⟨?_, ?_, Or.inr h1⟩
    · rw [h1]; exact h1
    · rw [h1]; exact Nat.le_succ _
  | none =>
    have h1 : canvasStatisticsStep s = (some s.nextHandle,
        { s with
          meanValues := (s.key img, s.nextHandle) :: s.meanValues
          nextHandle := s.nextHandle + 1
          scheduled := s.scheduled ++ [s.nextHandle] }) := by
      simp only [canvasStatisticsStep, h, hlk]
    have h2 : canvasStatisticsStep
        { s with
          meanValues := (s.key img, s.nextHandle) :: s.meanValues
          nextHandle := s.nextHandle + 1
          scheduled := s.scheduled ++ [s.nextHandle] } =
        (some s.nextHandle,
          { s with
            meanValues := (s.key img, s.nextHandle) :: s.meanValues
            nextHandle := s.nextHandle + 1
            scheduled := s.scheduled ++ [s.nextHandle] }) := by
      simp only [canvasStatisticsStep, h, CanvasState.key, List.lookup, beq_self_eq_true]
    refine ⟨?_, ?_, Or.inl rfl⟩
    · rw [h1]; exact h2
    · rw [h1]; simp

/-- C5 witness: the memoization behaviour starting from the concrete
empty-cache state `stateC5`. -/
theorem C5_cache_memoizing_witness :
    stateC5.image = some imgC1 ∧
    (canvasStatisticsStep (canvasStatisticsStep stateC5).2 = canvasStatisticsStep stateC5 ∧
      (canvasStatisticsStep stateC5).2.scheduled.length ≤ stateC5.scheduled.length + 1 ∧
      (stateC5.meanValues.lookup (stateC5.key imgC1) = none ∨
        canvasStatisticsStep stateC5 = (stateC5.meanValues.lookup (stateC5.key imgC1),
          stateC5))) :=
  ⟨rfl, C5_cache_memoizing stateC5 imgC1 rfl⟩

/-- C10: the flat HDR export buffer has 4 floats per pixel and holds
exactly `min(numberOfCompositeChannels, 4)` channels interleaved —
silently dropping every composite channel beyond the fourth; the fourth
slot of a pixel is 1.0 exactly when fewer than four channels are exported
(regardless of how the fourth composite channel is named), and slots of
unwritten channels are 0. -/
theorem C10_hdr_export (img : Image) (reference : Option Image) (group : String)
    (metric : EMetric) (pp : EPostProcessing) (j i : ℕ)
    (hch : 0 < (channelsFromImages (some img) reference group metric pp).length)
    (hj : j < img.countN) (hi : i < 4) :
    (getHdrImageData (some img) reference group metric pp false).size = 4 * img.countN ∧
    (getHdrImageData (some img) reference group metric pp false).get (j * 4 + i) =
      (if i < min (channelsFromImages (some img) reference group metric pp).length 4 then
        ((channelsFromImages (some img) reference group metric pp).getD i default).eval
          (j : ℤ)
      else if i = 3 then F.fin 1 else F.fin 0) := by
  have hemp : (channelsFromImages (some img) reference group metric pp).isEmpty = false := by
    cases hl : channelsFromImages (some img) reference group metric pp with
    | nil => rw [hl] at hch; simp at hch
    | cons a t => rfl
  simp only [getHdrImageData]
  rw [if_neg (by rw [hemp]; exact Bool.false_ne_true)]
  rw [if_neg Bool.false_ne_true]
  have hwsize : ∀ b : Buf,
      ((List.range
        (min (channelsFromImages (some img) reference group metric pp).length 4)).foldl
        (fun b i' => (List.range img.countN).foldl
          (fun b j' => b.set (j' * 4 + i')
            (((channelsFromImages (some img) reference group metric pp).getD i'
              default).eval (j' : ℤ))) b) b).size = b.size := by
    intro b
    exact foldl_buf_size _ _ _ (fun b' x => foldl_buf_size (List.range img.countN)
      (fun b'' j' => b''.set (j' * 4 + x)
        (((channelsFromImages (some img) reference group metric pp).getD x
          default).eval (j' : ℤ))) b' (fun _ _ => rfl))
  constructor
  · by_cases hn4 :
      min (channelsFromImages (some img) reference group metric pp).length 4 < 4
    · rw [if_pos hn4]
      rw [foldl_buf_size (List.range img.countN)
        (fun b j' => b.set (j' * 4 + 3) (F.fin 1)) _ (fun _ _ => rfl)]
      rw [hwsize]
    · rw [if_neg hn4]
      rw [hwsize]
  · by_cases hn4 :
      min (channelsFromImages (some img) reference group metric pp).length 4 < 4
    · rw [if_pos hn4]
      rw [alphaFill_get img.countN _ j i hj hi]
      rw [writeChannels_get (channelsFromImages (some img) reference group metric pp)
        img.countN (min (channelsFromImages (some img) reference group metric pp).length 4)
        (min_le_right _ _) _ j i hj hi]
      by_cases h3 : i = 3
      · subst h3
        rw [if_pos rfl, if_neg (by omega), if_pos rfl]
      · rw [if_neg h3]
        by_cases hin :
            i < min (channelsFromImages (some img) reference group metric pp).length 4
        · rw [if_pos hin, if_pos hin]
        · rw [if_neg hin, if_neg hin, if_neg h3]
    · rw [if_neg hn4]
      rw [writeChannels_get (channelsFromImages (some img) reference group metric pp)
        img.countN (min (channelsFromImages (some img) reference group metric pp).length 4)
        (min_le_right _ _) _ j i hj hi]
      rw [if_pos (by omega), if_pos (by omega)]

/-- C10 witness: for the two-channel 1×1 image `imgC8P`, pixel 0's fourth
slot is filled with 1.0 (fewer than four channels exported). -/
theorem C10_hdr_export_witness :
    0 < (channelsFromImages (some imgC8P) none "G" .Error .Identity).length ∧
    ((getHdrImageData (some imgC8P) none "G" .Error .Identity false).size =
        4 * imgC8P.countN ∧
      (getHdrImageData (some imgC8P) none "G" .Error .Identity false).get (0 * 4 + 3) =
        (if 3 < min (channelsFromImages (some imgC8P) none "G" .Error .Identity).length 4
          then
          ((channelsFromImages (some imgC8P) none "G" .Error .Identity).getD 3 default).eval
            ((0 : ℕ) : ℤ)
        else if (3 : ℕ) = 3 then F.fin 1 else F.fin 0)) :=
  ⟨by decide, C10_hdr_export imgC8P none "G" .Error .Identity 0 3 (by decide) (by decide)
    (by decide)⟩

/-- C3 (code bug): the `Vector` tonemap case computes the sRGB encoding
of the normalized input but lacks a `break`, so control falls through
into the `FalseColorPPG` case, which overwrites the result.  At input
(1, 0, 0) (norm 1) and any gamma the code returns the FalseColorPPG ramp
of `pow(value.x, 1/2.2)`, i.e. (1, 0, 0), whereas the specified Vector
mapping yields (1, sRGB(0.5), sRGB(0.5)) with sRGB(0.5) > 0; the
hypotheses pin down the C library functions only at the inputs used
(`sqrt 1 = 1`, `pow 1 y = 1`, `pow 0.5 (1/2.4) > 0.1`). -/
theorem C3_vector_fallthrough (ops : MathOps) (gamma : ℚ)
    (hsqrt : ops.qsqrt ((1 : ℚ) ^ 2 + (0 : ℚ) ^ 2 + (0 : ℚ) ^ 2) = 1)
    (hpow1 : ops.qpow 1 (1 / (11 / 5)) = 1)
    (hpow2 : ops.qpow (1 / 2 * (1 + 0 / 1)) (1 / (12 / 5)) > 1 / 10) :
    applyTonemap ops (1, 0, 0) gamma .Vector = (1, 0, 0) ∧
    applyTonemap ops (1, 0, 0) gamma .Vector ≠ specVectorTonemap ops (1, 0, 0) := by
  have hcode : applyTonemap ops (1, 0, 0) gamma .Vector = (1, 0, 0) := by
    rw [show applyTonemap ops (1, 0, 0) gamma .Vector =
        (fun R : V3 => (min (max R.1 0) 1, min (max R.2.1 0) 1, min (max R.2.2 0) 1))
          (if ops.qsqrt ((1 : ℚ) ^ 2 + (0 : ℚ) ^ 2 + (0 : ℚ) ^ 2) = 0 then
            ((1 : ℚ), (0 : ℚ), (0 : ℚ))
          else falseColorPPGRamp (ops.qpow 1 (1 / (11 / 5)))) from rfl]
    rw [hsqrt, if_neg (by norm_num : ¬ (1 : ℚ) = 0), hpow1]
    norm_num [falseColorPPGRamp, qclamp]
  refine ⟨hcode, ?_⟩
  rw [hcode]
  intro heq
  rw [show specVectorTonemap ops (1, 0, 0) =
      (fun R : V3 => (min (max R.1 0) 1, min (max R.2.1 0) 1, min (max R.2.2 0) 1))
        (if ops.qsqrt ((1 : ℚ) ^ 2 + (0 : ℚ) ^ 2 + (0 : ℚ) ^ 2) = 0 then
          ((1 : ℚ), (0 : ℚ), (0 : ℚ))
        else
          (toSRGB ops
            (1 / 2 * (1 + 1 / ops.qsqrt ((1 : ℚ) ^ 2 + (0 : ℚ) ^ 2 + (0 : ℚ) ^ 2))),
           toSRGB ops
            (1 / 2 * (1 + 0 / ops.qsqrt ((1 : ℚ) ^ 2 + (0 : ℚ) ^ 2 + (0 : ℚ) ^ 2))),
           toSRGB ops
            (1 / 2 * (1 + 0 / ops.qsqrt ((1 : ℚ) ^ 2 + (0 : ℚ) ^ 2 + (0 : ℚ) ^ 2)))))
      from rfl] at heq
  rw [hsqrt] at heq
  rw [if_neg (by norm_num : ¬ (1 : ℚ) = 0)] at heq
  simp only [] at heq
  have h2 := congrArg (fun v : V3 => v.2.1) heq
  simp only [] at h2
  simp only [toSRGB] at h2
  rw [if_neg (by norm_num : ¬ (1 : ℚ) / 2 * (1 + 0 / 1) ≤ 31308 / 10000000)] at h2
  have hX : (0 : ℚ) <
      min (max ((1 + 55 / 1000) * ops.qpow (1 / 2 * (1 + 0 / 1)) (1 / (12 / 5)) -
        55 / 1000) 0) 1 := by
    apply lt_min _ one_pos
    apply lt_of_lt_of_le _ (le_max_left _ _)
    nlinarith [hpow2]
  rw [← h2] at hX
  exact lt_irrefl 0 hX

/-- C3 witness: the fall-through behaviour under the concrete operation
bundle (whose `sqrt` and `pow` satisfy the pinned-down values). -/
theorem C3_vector_fallthrough_witness :
    concreteOps.qsqrt ((1 : ℚ) ^ 2 + (0 : ℚ) ^ 2 + (0 : ℚ) ^ 2) = 1 ∧
    (applyTonemap concreteOps (1, 0, 0) 2 .Vector = (1, 0, 0) ∧
      applyTonemap concreteOps (1, 0, 0) 2 .Vector ≠ specVectorTonemap concreteOps (1, 0, 0)) :=
  ⟨by norm_num [concreteOps],
    C3_vector_fallthrough concreteOps 2 (by norm_num [concreteOps])
      (by norm_num [concreteOps]) (by norm_num [concreteOps])⟩

/-- C9 witness: the degenerate statistics at the concrete 1×1 all-NaN
image `imgC9`. -/
theorem C9_witness :
    0 < statsNChannels argsC9 ∧
    (computeCanvasStatistics concreteOps argsC9).mean = F.nan ∧
    (computeCanvasStatistics concreteOps argsC9).minimum = F.pinf ∧
    (computeCanvasStatistics concreteOps argsC9).maximum = F.ninf :=
  ⟨by decide, C9_degenerate_crop concreteOps argsC9 (by decide) (by decide)⟩

end Tev
